import Mathlib

/-!
Shallow embedding of the uplink/downlink communication pipeline of
src/fprime_gds/common/communication/updown.py, and proofs about it.

Bytes objects are modelled as lists of naturals; a Python bytes slice
b[4:] becomes List.drop 4, concatenation becomes ++.

The Python standard library class queue.Queue is modelled by PyQueue:
its documented semantics are that a queue constructed with maxsize less
than or equal to zero is infinite, and put_nowait raises Full exactly
when 0 < maxsize and the current size is at least maxsize. The code
under verification constructs the shared downlink queue as Queue(),
whose default maxsize is 0.
-/

abbrev Byte := Nat
abbrev Bytes := List Byte
abbrev Frame := Bytes
abbrev Packet := Bytes

/-- Model of Python queue.Queue: a FIFO list of frames plus the declared
maxsize (0 means infinite, per the Python documentation). -/
structure PyQueue where
  maxsize : Nat
  items : List Frame
  deriving Repr, DecidableEq

namespace PyQueue

/-- Queue.qsize(): number of items currently held. -/
def qsize (q : PyQueue) : Nat := q.items.length

/-- Queue.put_nowait(item): raises Full (modelled as Except.error) exactly
when the queue is bounded (0 < maxsize) and already holds maxsize items;
otherwise appends the item at the tail. -/
def put_nowait (q : PyQueue) (f : Frame) : Except Unit PyQueue :=
  if 0 < q.maxsize ∧ q.maxsize ≤ q.items.length then Except.error ()
  else Except.ok { q with items := q.items ++ [f] }

/-- Queue.get_nowait(): returns the head item, or raises Empty (none). -/
def get_nowait (q : PyQueue) : Option (Frame × PyQueue) :=
  match q.items with
  | [] => none
  | f :: rest => some (f, { q with items := rest })

end PyQueue

namespace Downlinker

/-- Downlinker.__init__ line `self.outgoing = Queue()`: Python Queue with
the default maxsize of 0, i.e. an infinite queue. -/
def outgoing_init : PyQueue := { maxsize := 0, items := [] }

/-- Outcome of pushing one deframed batch into the outgoing queue. -/
structure PushResult where
  queue : PyQueue
  warnings : Nat
  attempts : Nat
  deriving Repr, DecidableEq

/-- The push block of Downlinker.deframing:

  try:
      for frame in frames:
          self.outgoing.put_nowait(frame)
  except Full:
      DW_LOGGER.warning("GDS ground queue full, dropping frame")

The try wraps the whole for loop, so the first Full aborts the loop with a
single warning and the remaining frames of the batch are never attempted.
attempts counts the put_nowait calls actually made. -/
def pushFrames (q : PyQueue) : List Frame → PushResult
  | [] => { queue := q, warnings := 0, attempts := 0 }
  | f :: rest =>
    match q.put_nowait f with
    | Except.ok q2 =>
      let r := pushFrames q2 rest
      { queue := r.queue, warnings := r.warnings, attempts := r.attempts + 1 }
    | Except.error _ => { queue := q, warnings := 1, attempts := 1 }

/-- Downlinker.add_loopback_frame: a single put_nowait guarded by its own
try/except Full; on overflow the frame is dropped with one warning. -/
def add_loopback_frame (q : PyQueue) (frame : Frame) : PyQueue × Nat :=
  match q.put_nowait frame with
  | Except.ok q2 => (q2, 0)
  | Except.error _ => (q, 1)

end Downlinker

namespace Uplinker

/-- Uplinker.RETRY_COUNT = 3. -/
def RETRY_COUNT : Nat := 3

/-- Model of U32Type(v).serialize() from the fprime library: a 32-bit
unsigned value packed as 4 bytes in big-endian (network) byte order. -/
def u32_serialize (v : Nat) : Bytes :=
  [v / 2 ^ 24 % 256, v / 2 ^ 16 % 256, v / 2 ^ 8 % 256, v % 256]

/-- Uplinker.get_handshake: the serialized FW_PACKET_HAND descriptor value
followed by the original packet bytes. The numeric value of the descriptor
constant DataDescType["FW_PACKET_HAND"].value lives in the external
fprime_gds utils package, so it is kept as the parameter handVal. -/
def get_handshake (handVal : Nat) (packet : Packet) : Bytes :=
  u32_serialize handVal ++ packet

/-- The retry loop `for retry in range(n): if self.adapter.write(framed): ...
break` of Uplinker.uplink. write gives the outcome of each attempt, indexed
from start; the loop stops at the first successful attempt. Returns the
number of write attempts made and whether one succeeded (the for/else
warning fires exactly when no attempt succeeded). -/
def retryLoop (write : Nat → Bool) : Nat → Nat → Nat × Bool
  | _, 0 => (0, false)
  | start, n + 1 =>
    if write start then (1, true)
    else
      let r := retryLoop write (start + 1) n
      (r.1 + 1, r.2)

/-- The packet filter of Uplinker.uplink (and DtnUplinker.uplink):

  [packet for packet in packets if packet is not None and len(packet) > 0]

Ground packets may be None, so the input is a list of optional packets. -/
def filter_packets (packets : List (Option Packet)) : List Packet :=
  packets.filterMap fun p =>
    match p with
    | none => none
    | some q => if 0 < q.length then some q else none

/-- Per-packet outcome of the uplink stage body. -/
structure UplinkPacketResult where
  packet : Packet
  framed : Bytes
  attempts : Nat
  success : Bool
  warned : Bool
  deriving Repr, DecidableEq

/-- The body Uplinker.uplink runs for one (already filtered) packet:
frame it, attempt Adapter.write up to RETRY_COUNT times, and on the first
success push get_handshake(packet) into the downlink queue through
add_loopback_frame; when the loop exhausts without success the for/else
clause logs a warning. Returns the updated downlink queue and the
per-packet outcome. -/
def uplinkOnePacket (handVal : Nat) (frame_fn : Packet → Bytes)
    (write : Nat → Bool) (q : PyQueue) (packet : Packet) :
    PyQueue × UplinkPacketResult :=
  let framed := frame_fn packet
  let r := retryLoop write 0 RETRY_COUNT
  let q2 := if r.2 then (Downlinker.add_loopback_frame q (get_handshake handVal packet)).1 else q
  (q2, { packet := packet, framed := framed, attempts := r.1,
         success := r.2, warned := !r.2 })

/-- The per-iteration loop of Uplinker.uplink over the filtered packets,
threading the downlink queue; the write oracle is indexed by packet
position then by attempt. -/
def uplink_go (handVal : Nat) (frame_fn : Packet → Bytes)
    (write : Nat → Nat → Bool) (q : PyQueue) (idx : Nat) :
    List Packet → PyQueue × List UplinkPacketResult
  | [] => (q, [])
  | p :: rest =>
    let r := uplinkOnePacket handVal frame_fn (write idx) q p
    let rs := uplink_go handVal frame_fn write r.1 (idx + 1) rest
    (rs.1, r.2 :: rs.2)

/-- One iteration of Uplinker.uplink: receive_all gives packets, the
null/empty ones are filtered out, and each remaining packet is framed,
written with retries, and acknowledged with a loopback handshake. -/
def uplink_iteration (handVal : Nat) (frame_fn : Packet → Bytes)
    (write : Nat → Nat → Bool) (q : PyQueue)
    (packets : List (Option Packet)) : PyQueue × List UplinkPacketResult :=
  uplink_go handVal frame_fn write q 0 (filter_packets packets)

end Uplinker

namespace DtnUplinker

/-- DtnUplinker.DEST_EID_NAME. -/
def DEST_EID_NAME : String := "ipn:2.1"

/-- Observable actions of the DtnUplinker.uplink body. -/
inductive Event where
  | bp_send (dest : String) (data : Bytes)
  | add_loopback (frame : Frame)
  deriving Repr, DecidableEq

/-- The body DtnUplinker.uplink runs for one (already filtered) packet:
self.eid.bp_send(DEST_EID_NAME, bytes(packet)) followed unconditionally by
self.loopback.add_loopback_frame(Uplinker.get_handshake(packet)). There is
no write-result check and no delivery confirmation between the two calls. -/
def uplinkOnePacket (handVal : Nat) (packet : Packet) : List Event :=
  [Event.bp_send DEST_EID_NAME packet,
   Event.add_loopback (Uplinker.get_handshake handVal packet)]

/-- One iteration of DtnUplinker.uplink: receive_all, the same null/empty
filter as the base class, then the per-packet body, in order. -/
def uplink_iteration (handVal : Nat) (packets : List (Option Packet)) :
    List Event :=
  (Uplinker.filter_packets packets).flatMap (uplinkOnePacket handVal)

/-- Recognizer for loopback-injection events. -/
def isLoopback : Event → Bool
  | Event.add_loopback _ => true
  | _ => false

end DtnUplinker

namespace DtnDownlinker

/-- Observable actions of the DtnDownlinker deframing-side threads. -/
inductive Event where
  | queue_put (frame : Frame)
  | ltp_inbound (segment : Bytes)
  deriving Repr, DecidableEq

/-- The per-batch body of DtnDownlinker.deframing: each extracted frame has
its first 4 bytes stripped (ltp_frame = ltp_frame[4:]) and is handed to
pyion.ltp.ltp_handle_inbound_segment; nothing is put on self.outgoing. -/
def deframe_body : List Frame → List Event
  | [] => []
  | f :: rest => Event.ltp_inbound (f.drop 4) :: deframe_body rest

/-- One iteration of DtnDownlinker._dtn_deframe (the bundle-receive
thread): bp_receive yields a bundle, which is put on self.outgoing with
put_nowait, dropped with a warning when Full. -/
def dtn_deframe_iter (bundle : Bytes) (q : PyQueue) : PyQueue × Nat :=
  match q.put_nowait bundle with
  | Except.ok q2 => (q2, 0)
  | Except.error _ => (q, 1)

/-- Recognizer for queue-insertion events. -/
def isQueuePut : Event → Bool
  | Event.queue_put _ => true
  | _ => false

end DtnDownlinker

/-- The seven thread bodies (stage loops) defined in updown.py. The Dtn
classes inherit Downlinker.sending and the start/stop machinery; the
entries here are the distinct method bodies that run as stage threads. -/
inductive Stage where
  | downlinkDeframing
  | downlinkSending
  | uplinkUplink
  | dtnDownlinkDeframing
  | dtnDownlinkDtnDeframe
  | dtnUplinkUplink
  | dtnUplinkDtnFrame
  deriving Repr, DecidableEq

/-- How a stage thread ends when an OSError reaches its top level. -/
inductive StageExit where
  | raised
  | swallowed
  deriving Repr, DecidableEq

/-- The handler pattern `except OSError: if self.running: raise` that wraps
some stage bodies: the error is re-raised only while running. -/
def catchOSError (running : Bool) : StageExit :=
  if running then StageExit.raised else StageExit.swallowed

/-- What each stage body does with an OSError raised by its I/O calls,
as a function of the running flag at handling time. Uplinker.uplink,
DtnDownlinker._dtn_deframe, DtnUplinker._dtn_frame and DtnUplinker.uplink
wrap their loops in try/except OSError; Downlinker.deframing,
Downlinker.sending and DtnDownlinker.deframing have no handler at all, so
the error always propagates out of the thread body. -/
def stage_on_oserror : Stage → Bool → StageExit
  | Stage.downlinkDeframing, _ => StageExit.raised
  | Stage.downlinkSending, _ => StageExit.raised
  | Stage.uplinkUplink, running => catchOSError running
  | Stage.dtnDownlinkDeframing, _ => StageExit.raised
  | Stage.dtnDownlinkDtnDeframe, running => catchOSError running
  | Stage.dtnUplinkUplink, running => catchOSError running
  | Stage.dtnUplinkDtnFrame, running => catchOSError running

/-- Whether the stage body's loop is wrapped in try/except OSError in the
source. -/
def stage_has_handler : Stage → Bool
  | Stage.downlinkDeframing => false
  | Stage.downlinkSending => false
  | Stage.uplinkUplink => true
  | Stage.dtnDownlinkDeframing => false
  | Stage.dtnDownlinkDtnDeframe => true
  | Stage.dtnUplinkUplink => true
  | Stage.dtnUplinkDtnFrame => true

namespace Downlinker

/-- One scheduling step of the downlink pipeline: either the deframing
thread runs one iteration (reading the next chunk from the adapter), or
the sending thread runs one iteration. -/
inductive Op where
  | deframe (data : Bytes)
  | send
  deriving Repr, DecidableEq

/-- Joint state of the two downlink stages: the deframing stage's byte
pool, the shared outgoing queue, the concatenation of all batches passed
to ground.send_all so far, and the warnings logged. -/
structure State where
  pool : Bytes
  q : PyQueue
  sent : List Frame
  warnings : Nat
  deriving Repr, DecidableEq

/-- Downlinker state right after construction: empty pool, outgoing =
Queue(), nothing sent. -/
def init : State :=
  { pool := [], q := outgoing_init, sent := [], warnings := 0 }

/-- One iteration of Downlinker.sending: a blocking get of the first frame
(Empty after the timeout leaves the batch empty) followed by a drain of
everything currently queued, then one ground.send_all(frames) call. With
no concurrent producer inside the iteration, the batch is the entire queue
content in FIFO order. -/
def sending_iter (q : PyQueue) : List Frame × PyQueue :=
  match q.items with
  | [] => ([], q)
  | f :: rest => (f :: rest, { q with items := [] })

/-- Small-step semantics of the downlink pipeline, parameterized by the
deframer's deframe_all function (frames extracted, remainder). A deframe
step is one iteration of Downlinker.deframing: pool += adapter.read();
frames, pool = deframer.deframe_all(pool); push the frames. A send step is
one iteration of Downlinker.sending. -/
def step (deframe_all : Bytes → List Frame × Bytes) (s : State) :
    Op → State
  | Op.deframe data =>
    let pool2 := s.pool ++ data
    let fr := deframe_all pool2
    let r := pushFrames s.q fr.1
    { pool := fr.2, q := r.queue, sent := s.sent,
      warnings := s.warnings + r.warnings }
  | Op.send =>
    let b := sending_iter s.q
    { pool := s.pool, q := b.2, sent := s.sent ++ b.1,
      warnings := s.warnings }

/-- Run a whole schedule of downlink steps. -/
def run (deframe_all : Bytes → List Frame × Bytes) (s : State) :
    List Op → State
  | [] => s
  | op :: ops => run deframe_all (step deframe_all s op) ops

/-- The frames F1..Fn the deframer extracts along a schedule, in extraction
order, tracking the byte pool exactly as the deframing stage does. -/
def extracted (deframe_all : Bytes → List Frame × Bytes) (pool : Bytes) :
    List Op → List Frame
  | [] => []
  | Op.deframe data :: ops =>
    let fr := deframe_all (pool ++ data)
    fr.1 ++ extracted deframe_all fr.2 ops
  | Op.send :: ops => extracted deframe_all pool ops

end Downlinker

/-- Reads a byte list as an unsigned big-endian integer (the inverse view
of network byte order used by the handshake descriptor). -/
def bytesBE (l : Bytes) : Nat := l.foldl (fun a b => a * 256 + b) 0

section QueueLemmas

/-- On an infinite queue (maxsize 0) put_nowait always succeeds. -/
theorem put_nowait_unbounded (q : PyQueue) (f : Frame) (h : q.maxsize = 0) :
    q.put_nowait f = Except.ok { q with items := q.items ++ [f] } := by
  simp [PyQueue.put_nowait, h]

/-- On an infinite queue every frame of a batch is pushed, in order, with
no warnings, and every push is attempted. -/
theorem pushFrames_unbounded (q : PyQueue) (fs : List Frame) (h : q.maxsize = 0) :
    Downlinker.pushFrames q fs =
      { queue := { maxsize := 0, items := q.items ++ fs },
        warnings := 0, attempts := fs.length } := by
  induction fs generalizing q with
  | nil =>
    simp [Downlinker.pushFrames]
    cases q with
    | mk m i => simp_all
  | cons f rest ih =>
    rw [Downlinker.pushFrames, put_nowait_unbounded q f h]
    simp [ih { q with items := q.items ++ [f] } h]

end QueueLemmas

section RetryLemmas

/-- The retry loop reports success exactly when some attempt within the
budget would succeed. -/
theorem retryLoop_success_iff (write : Nat → Bool) (start n : Nat) :
    (Uplinker.retryLoop write start n).2 = true ↔
      ∃ i, i < n ∧ write (start + i) = true := by
  induction n generalizing start with
  | zero => simp [Uplinker.retryLoop]
  | succ n ih =>
    rw [Uplinker.retryLoop]
    by_cases h : write start = true
    · simp only [h, if_true]
      constructor
      · intro _
        exact ⟨0, Nat.succ_pos n, by simpa using h⟩
      · intro _
        trivial
    · simp only [h]
      rw [if_neg (by simp [h])]
      simp only [ih (start + 1)]
      constructor
      · rintro ⟨i, hi, hw⟩
        exact ⟨i + 1, by omega, by rw [show start + (i + 1) = start + 1 + i by omega]; exact hw⟩
      · rintro ⟨i, hi, hw⟩
        match i with
        | 0 => exact absurd (by simpa using hw) h
        | j + 1 =>
          exact ⟨j, by omega, by rw [show start + 1 + j = start + (j + 1) by omega]; exact hw⟩

/-- When every attempt in the budget fails, the loop makes exactly n
attempts and reports failure. -/
theorem retryLoop_all_fail (write : Nat → Bool) (start n : Nat)
    (h : ∀ i, i < n → write (start + i) = false) :
    Uplinker.retryLoop write start n = (n, false) := by
  induction n generalizing start with
  | zero => simp [Uplinker.retryLoop]
  | succ n ih =>
    rw [Uplinker.retryLoop]
    have h0 : write start = false := by simpa using h 0 (Nat.succ_pos n)
    rw [if_neg (by simp [h0])]
    have := ih (start + 1) (fun i hi => by
      have := h (i + 1) (by omega)
      rwa [show start + (i + 1) = start + 1 + i by omega] at this)
    simp [this]

end RetryLemmas

section DownlinkRunLemmas

/-- The downlink pipeline run from an unbounded-queue state neither loses
nor reorders frames: what has been sent followed by what is still queued
is exactly the previously pending material plus every frame extracted
along the schedule, in order; the queue stays unbounded and no drop
warning is ever logged. -/
theorem downlink_run_invariant (deframe_all : Bytes → List Frame × Bytes)
    (ops : List Downlinker.Op) (s : Downlinker.State)
    (h : s.q.maxsize = 0) :
    (Downlinker.run deframe_all s ops).sent ++ (Downlinker.run deframe_all s ops).q.items
        = s.sent ++ s.q.items ++ Downlinker.extracted deframe_all s.pool ops
      ∧ (Downlinker.run deframe_all s ops).q.maxsize = 0
      ∧ (Downlinker.run deframe_all s ops).warnings = s.warnings := by
  induction ops generalizing s with
  | nil => simp [Downlinker.run, Downlinker.extracted, h]
  | cons op ops ih =>
    cases op with
    | deframe data =>
      rw [Downlinker.run, Downlinker.extracted]
      have hstep : Downlinker.step deframe_all s (Downlinker.Op.deframe data)
          = { pool := (deframe_all (s.pool ++ data)).2,
              q := { maxsize := 0,
                     items := s.q.items ++ (deframe_all (s.pool ++ data)).1 },
              sent := s.sent, warnings := s.warnings } := by
        rw [Downlinker.step]
        rw [pushFrames_unbounded s.q (deframe_all (s.pool ++ data)).1 h]
        simp
      rw [hstep]
      have := ih { pool := (deframe_all (s.pool ++ data)).2,
                   q := { maxsize := 0,
                          items := s.q.items ++ (deframe_all (s.pool ++ data)).1 },
                   sent := s.sent, warnings := s.warnings } rfl
      simpa [List.append_assoc] using this
    | send =>
      rw [Downlinker.run, Downlinker.extracted]
      cases hq : s.q.items with
      | nil =>
        have hstep : Downlinker.step deframe_all s Downlinker.Op.send
            = { pool := s.pool, q := s.q, sent := s.sent,
                warnings := s.warnings } := by
          rw [Downlinker.step]
          simp [Downlinker.sending_iter, hq]
        rw [hstep]
        have := ih { pool := s.pool, q := s.q, sent := s.sent,
                     warnings := s.warnings } h
        simpa [hq] using this
      | cons f rest =>
        have hstep : Downlinker.step deframe_all s Downlinker.Op.send
            = { pool := s.pool, q := { s.q with items := [] },
                sent := s.sent ++ (f :: rest), warnings := s.warnings } := by
          rw [Downlinker.step]
          simp [Downlinker.sending_iter, hq]
        rw [hstep]
        have := ih { pool := s.pool, q := { s.q with items := [] },
                     sent := s.sent ++ (f :: rest), warnings := s.warnings } h
        simpa [hq, List.append_assoc] using this

end DownlinkRunLemmas

section FilterLemmas

/-- Membership in the uplink packet filter: exactly the non-null packets of
positive length pass. -/
theorem mem_filter_packets (ps : List (Option Packet)) (p : Packet) :
    p ∈ Uplinker.filter_packets ps ↔ some p ∈ ps ∧ 0 < p.length := by
  induction ps with
  | nil => simp [Uplinker.filter_packets]
  | cons hd tl ih =>
    rw [Uplinker.filter_packets] at *
    cases hd with
    | none =>
      simp only [List.filterMap_cons]
      constructor
      · intro hmem
        rcases (ih.mp hmem) with ⟨h1, h2⟩
        exact ⟨List.mem_cons_of_mem _ h1, h2⟩
      · rintro ⟨h1, h2⟩
        rcases List.mem_cons.mp h1 with h1 | h1
        · cases h1
        · exact ih.mpr ⟨h1, h2⟩
    | some v =>
      simp only [List.filterMap_cons]
      by_cases hv : 0 < v.length
      · rw [if_pos hv]
        constructor
        · intro hmem
          rcases List.mem_cons.mp hmem with hmem | hmem
          · subst hmem
            exact ⟨List.mem_cons_self _ _, hv⟩
          · rcases (ih.mp hmem) with ⟨h1, h2⟩
            exact ⟨List.mem_cons_of_mem _ h1, h2⟩
        · rintro ⟨h1, h2⟩
          rcases List.mem_cons.mp h1 with h1 | h1
          · rw [Option.some_inj] at h1
            subst h1
            exact List.mem_cons_self _ _
          · exact List.mem_cons_of_mem _ (ih.mpr ⟨h1, h2⟩)
      · rw [if_neg hv]
        constructor
        · intro hmem
          rcases (ih.mp hmem) with ⟨h1, h2⟩
          exact ⟨List.mem_cons_of_mem _ h1, h2⟩
        · rintro ⟨h1, h2⟩
          rcases List.mem_cons.mp h1 with h1 | h1
          · rw [Option.some_inj] at h1
            subst h1
            exact absurd h2 hv
          · exact ih.mpr ⟨h1, h2⟩

/-- The filter never produces a zero-length packet. -/
theorem filter_packets_pos (ps : List (Option Packet)) :
    ∀ p ∈ Uplinker.filter_packets ps, 0 < p.length := by
  intro p hp
  exact ((mem_filter_packets ps p).mp hp).2

/-- A send step extracts no frames, so a trailing send leaves the
extraction sequence unchanged. -/
theorem extracted_append_send (deframe_all : Bytes → List Frame × Bytes)
    (pool : Bytes) (ops : List Downlinker.Op) :
    Downlinker.extracted deframe_all pool (ops ++ [Downlinker.Op.send])
      = Downlinker.extracted deframe_all pool ops := by
  induction ops generalizing pool with
  | nil => simp [Downlinker.extracted]
  | cons op ops ih =>
    cases op with
    | deframe data =>
      rw [List.cons_append, Downlinker.extracted, Downlinker.extracted, ih]
    | send =>
      rw [List.cons_append, Downlinker.extracted, Downlinker.extracted, ih]

end FilterLemmas

section UplinkLemmas

/-- On an unbounded queue add_loopback_frame always appends the frame and
never warns. -/
theorem add_loopback_frame_unbounded (q : PyQueue) (f : Frame)
    (h : q.maxsize = 0) :
    Downlinker.add_loopback_frame q f
      = ({ q with items := q.items ++ [f] }, 0) := by
  simp [Downlinker.add_loopback_frame, put_nowait_unbounded q f h]

/-- The uplink loop processes every filtered packet, in order, framing each
with the framer; the for/else warning fires exactly on failure. -/
theorem uplink_go_packets (handVal : Nat) (frame_fn : Packet → Bytes)
    (write : Nat → Nat → Bool) (q : PyQueue) (idx : Nat) (ps : List Packet) :
    ((Uplinker.uplink_go handVal frame_fn write q idx ps).2.map
        (fun r => r.packet) = ps)
    ∧ (∀ r ∈ (Uplinker.uplink_go handVal frame_fn write q idx ps).2,
        r.framed = frame_fn r.packet ∧ r.warned = !r.success) := by
  induction ps generalizing q idx with
  | nil => simp [Uplinker.uplink_go]
  | cons p rest ih =>
    rw [Uplinker.uplink_go]
    constructor
    · simp only [List.map_cons]
      refine congrArg (p :: ·) ?_
      exact (ih _ _).1
    · intro r hr
      rcases List.mem_cons.mp hr with hr | hr
      · subst hr
        simp [Uplinker.uplinkOnePacket]
      · exact (ih _ _).2 r hr

/-- With an always-failing write oracle, every processed packet records
exactly RETRY_COUNT attempts and no success. -/
theorem uplink_go_all_fail (handVal : Nat) (frame_fn : Packet → Bytes)
    (write : Nat → Nat → Bool) (q : PyQueue) (idx : Nat) (ps : List Packet)
    (hw : ∀ i j, write i j = false) :
    ∀ r ∈ (Uplinker.uplink_go handVal frame_fn write q idx ps).2,
      r.attempts = Uplinker.RETRY_COUNT ∧ r.success = false := by
  induction ps generalizing q idx with
  | nil => simp [Uplinker.uplink_go]
  | cons p rest ih =>
    rw [Uplinker.uplink_go]
    intro r hr
    rcases List.mem_cons.mp hr with hr | hr
    · subst hr
      have hloop := retryLoop_all_fail (write idx) 0 Uplinker.RETRY_COUNT
        (fun i _ => hw idx (0 + i))
      simp [Uplinker.uplinkOnePacket, hloop]
    · exact ih _ _ r hr

end UplinkLemmas

/-- Claim C1: in the base Uplinker's uplink stage, for a processed packet a
handshake frame is pushed into the downlink queue through
add_loopback_frame exactly when some Adapter.write attempt for its framed
bytes succeeded, and a packet whose RETRY_COUNT attempts all fail leaves
the downlink queue untouched (no handshake). Stated against the shipped
unbounded downlink queue (maxsize 0). -/
theorem C1_handshake_iff_write_success (handVal : Nat)
    (frame_fn : Packet → Bytes) (write : Nat → Bool) (q : PyQueue)
    (p : Packet) (h : q.maxsize = 0) :
    ((Uplinker.uplinkOnePacket handVal frame_fn write q p).1.items
        = q.items ++ [Uplinker.get_handshake handVal p]
      ↔ ∃ i, i < Uplinker.RETRY_COUNT ∧ write i = true)
    ∧ ((∀ i, i < Uplinker.RETRY_COUNT → write i = false) →
        (Uplinker.uplinkOnePacket handVal frame_fn write q p).1.items
          = q.items) := by
  by_cases hs : (Uplinker.retryLoop write 0 Uplinker.RETRY_COUNT).2 = true
  · have hq : (Uplinker.uplinkOnePacket handVal frame_fn write q p).1
        = { q with items := q.items ++ [Uplinker.get_handshake handVal p] } := by
      simp [Uplinker.uplinkOnePacket, hs,
        add_loopback_frame_unbounded q (Uplinker.get_handshake handVal p) h]
    refine ⟨?_, ?_⟩
    · rw [hq]
      simp only [true_iff, List.append_cancel_left_eq]
      have := (retryLoop_success_iff write 0 Uplinker.RETRY_COUNT).mp hs
      simpa using this
    · intro hall
      have := retryLoop_all_fail write 0 Uplinker.RETRY_COUNT
        (fun i hi => by simpa using hall i hi)
      rw [this] at hs
      exact absurd hs (by simp)
  · have hq : (Uplinker.uplinkOnePacket handVal frame_fn write q p).1 = q := by
      simp [Uplinker.uplinkOnePacket, hs]
    refine ⟨?_, fun _ => by rw [hq]⟩
    rw [hq]
    constructor
    · intro heq
      have := congrArg List.length heq
      simp at this
    · rintro ⟨i, hi, hw⟩
      exact absurd ((retryLoop_success_iff write 0 Uplinker.RETRY_COUNT).mpr
        ⟨i, hi, by simpa using hw⟩) hs

/-- Closed instance of C1 at a concrete input: unbounded fresh queue, a
first-try-success write oracle, packet [1]. -/
theorem C1_handshake_iff_write_success_witness :
    (((Uplinker.uplinkOnePacket 67 id (fun _ => true)
          Downlinker.outgoing_init [1]).1.items
        = Downlinker.outgoing_init.items ++ [Uplinker.get_handshake 67 [1]]
      ↔ ∃ i, i < Uplinker.RETRY_COUNT ∧ (fun _ : Nat => true) i = true)
    ∧ ((∀ i, i < Uplinker.RETRY_COUNT → (fun _ : Nat => true) i = false) →
        (Uplinker.uplinkOnePacket 67 id (fun _ => true)
            Downlinker.outgoing_init [1]).1.items
          = Downlinker.outgoing_init.items)) :=
  C1_handshake_iff_write_success 67 id (fun _ => true)
    Downlinker.outgoing_init [1] rfl

/-- Claim C3: with an Adapter.write that fails on every call, the uplink
stage makes exactly RETRY_COUNT = 3 write attempts per processed packet,
records the for/else warning, and still processes every filtered packet in
order (it moves on rather than hanging or aborting). -/
theorem C3_retry_bound (handVal : Nat) (frame_fn : Packet → Bytes)
    (write : Nat → Nat → Bool) (q : PyQueue)
    (packets : List (Option Packet)) (hw : ∀ i j, write i j = false) :
    Uplinker.RETRY_COUNT = 3
    ∧ (∀ r ∈ (Uplinker.uplink_iteration handVal frame_fn write q packets).2,
        r.attempts = 3 ∧ r.success = false ∧ r.warned = true)
    ∧ ((Uplinker.uplink_iteration handVal frame_fn write q packets).2.map
        (fun r => r.packet)) = Uplinker.filter_packets packets := by
  refine ⟨rfl, ?_, (uplink_go_packets handVal frame_fn write q 0
    (Uplinker.filter_packets packets)).1⟩
  intro r hr
  have h1 := uplink_go_all_fail handVal frame_fn write q 0
    (Uplinker.filter_packets packets) hw r hr
  have h2 := (uplink_go_packets handVal frame_fn write q 0
    (Uplinker.filter_packets packets)).2 r hr
  refine ⟨h1.1, h1.2, ?_⟩
  rw [h2.2, h1.2]
  rfl

/-- Closed instance of C3: always-failing writes over a batch holding a
null packet, an empty packet and two real packets. -/
theorem C3_retry_bound_witness :
    Uplinker.RETRY_COUNT = 3
    ∧ (∀ r ∈ (Uplinker.uplink_iteration 67 id (fun _ _ => false)
          Downlinker.outgoing_init
          [some [5], none, some [], some [7, 8]]).2,
        r.attempts = 3 ∧ r.success = false ∧ r.warned = true)
    ∧ ((Uplinker.uplink_iteration 67 id (fun _ _ => false)
          Downlinker.outgoing_init
          [some [5], none, some [], some [7, 8]]).2.map (fun r => r.packet))
        = Uplinker.filter_packets [some [5], none, some [], some [7, 8]] :=
  C3_retry_bound 67 id (fun _ _ => false) Downlinker.outgoing_init
    [some [5], none, some [], some [7, 8]] (fun _ _ => rfl)

/-- Claim C8: in both uplink variants the packets reaching the per-packet
body are exactly the non-null packets of positive length from
receive_all, in order; every processed packet is framed with the framer;
and in the DTN variant the bp_send calls carry exactly the filtered
packets. Hence no null or empty packet ever reaches Framer.frame or
Adapter.write. -/
theorem C8_null_empty_filter (handVal : Nat) (frame_fn : Packet → Bytes)
    (write : Nat → Nat → Bool) (q : PyQueue)
    (ps : List (Option Packet)) :
    (∀ p, p ∈ Uplinker.filter_packets ps ↔ some p ∈ ps ∧ 0 < p.length)
    ∧ ((Uplinker.uplink_iteration handVal frame_fn write q ps).2.map
        (fun r => r.packet) = Uplinker.filter_packets ps)
    ∧ (∀ r ∈ (Uplinker.uplink_iteration handVal frame_fn write q ps).2,
        0 < r.packet.length ∧ r.framed = frame_fn r.packet)
    ∧ (∀ p, DtnUplinker.Event.bp_send DtnUplinker.DEST_EID_NAME p
          ∈ DtnUplinker.uplink_iteration handVal ps
        ↔ p ∈ Uplinker.filter_packets ps) := by
  refine ⟨fun p => mem_filter_packets ps p,
    (uplink_go_packets handVal frame_fn write q 0
      (Uplinker.filter_packets ps)).1, ?_, ?_⟩
  · intro r hr
    have h2 := (uplink_go_packets handVal frame_fn write q 0
      (Uplinker.filter_packets ps)).2 r hr
    refine ⟨?_, h2.1⟩
    have hpkts := (uplink_go_packets handVal frame_fn write q 0
      (Uplinker.filter_packets ps)).1
    have : r.packet ∈ Uplinker.filter_packets ps := by
      rw [← hpkts]
      exact List.mem_map_of_mem _ hr
    exact filter_packets_pos ps r.packet this
  · intro p
    rw [DtnUplinker.uplink_iteration]
    constructor
    · intro hmem
      rcases List.mem_flatMap.mp hmem with ⟨a, ha, hin⟩
      rw [DtnUplinker.uplinkOnePacket] at hin
      rcases List.mem_cons.mp hin with hin | hin
      · cases hin
        exact ha
      · rcases List.mem_cons.mp hin with hin | hin
        · cases hin
        · cases hin
    · intro hmem
      exact List.mem_flatMap.mpr ⟨p, hmem, by
        rw [DtnUplinker.uplinkOnePacket]
        exact List.mem_cons_self _ _⟩

/-- Closed instance of C8 at a concrete receive_all batch holding one real
packet, a null packet and an empty packet. -/
theorem C8_null_empty_filter_witness :
    ((∀ p, p ∈ Uplinker.filter_packets [some [5], none, some []]
        ↔ some p ∈ [some [5], none, some ([] : Packet)] ∧ 0 < p.length)
    ∧ ((Uplinker.uplink_iteration 67 id (fun _ _ => false)
          Downlinker.outgoing_init [some [5], none, some []]).2.map
        (fun r => r.packet)
        = Uplinker.filter_packets [some [5], none, some []])
    ∧ (∀ r ∈ (Uplinker.uplink_iteration 67 id (fun _ _ => false)
          Downlinker.outgoing_init [some [5], none, some []]).2,
        0 < r.packet.length ∧ r.framed = id r.packet)
    ∧ (∀ p, DtnUplinker.Event.bp_send DtnUplinker.DEST_EID_NAME p
          ∈ DtnUplinker.uplink_iteration 67 [some [5], none, some []]
        ↔ p ∈ Uplinker.filter_packets [some [5], none, some []])) :=
  C8_null_empty_filter 67 id (fun _ _ => false) Downlinker.outgoing_init
    [some [5], none, some []]

/-- Claim C2 counterexample: the shared downlink queue is constructed as
Queue() with Python's default maxsize of 0, which is an infinite queue,
not a finite capacity; pushing 100 frames from the fresh state succeeds
with no drop, so no declared bound constrains the size. -/
theorem C2_unbounded_counterexample :
    Downlinker.outgoing_init.maxsize = 0
    ∧ ¬ 0 < Downlinker.outgoing_init.maxsize
    ∧ (Downlinker.pushFrames Downlinker.outgoing_init
        (List.replicate 100 ([] : Bytes))).queue.items.length = 100
    ∧ (Downlinker.pushFrames Downlinker.outgoing_init
        (List.replicate 100 ([] : Bytes))).warnings = 0 := by
  have h := pushFrames_unbounded Downlinker.outgoing_init
    (List.replicate 100 ([] : Bytes)) rfl
  refine ⟨rfl, by simp [Downlinker.outgoing_init], ?_, ?_⟩
  · rw [h]
    simp [Downlinker.outgoing_init]
  · rw [h]

/-- Claim C2 amended: the shared frame queue is created with Python's
default maxsize 0, i.e. unbounded; from the fresh state any batch of n
frames is accepted in full — all n put_nowait calls are attempted and
succeed, no overflow warning ever fires, and the size reaches n — so the
queue size is not bounded by any declared finite capacity. -/
theorem C2_amended_unbounded (fs : List Frame) :
    Downlinker.outgoing_init.maxsize = 0
    ∧ (Downlinker.pushFrames Downlinker.outgoing_init fs).queue.items = fs
    ∧ (Downlinker.pushFrames Downlinker.outgoing_init fs).warnings = 0
    ∧ (Downlinker.pushFrames Downlinker.outgoing_init fs).attempts
        = fs.length := by
  have h := pushFrames_unbounded Downlinker.outgoing_init fs rfl
  refine ⟨rfl, ?_, ?_, ?_⟩ <;> rw [h]
  simp [Downlinker.outgoing_init]

section PushPolicyLemmas

/-- A batch push logs at most one warning: the try/except wraps the whole
loop, so the first Full ends the batch. -/
theorem pushFrames_warnings_le_one (q : PyQueue) (fs : List Frame) :
    (Downlinker.pushFrames q fs).warnings ≤ 1 := by
  induction fs generalizing q with
  | nil => simp [Downlinker.pushFrames]
  | cons f rest ih =>
    rw [Downlinker.pushFrames]
    cases hput : q.put_nowait f with
    | ok q2 => simpa using ih q2
    | error e => simp

/-- A batch with no warning pushed every frame, in order, attempting each
put once. -/
theorem pushFrames_no_warning (q : PyQueue) (fs : List Frame)
    (h : (Downlinker.pushFrames q fs).warnings = 0) :
    (Downlinker.pushFrames q fs).queue.items = q.items ++ fs
      ∧ (Downlinker.pushFrames q fs).attempts = fs.length := by
  induction fs generalizing q with
  | nil => simp [Downlinker.pushFrames]
  | cons f rest ih =>
    rw [Downlinker.pushFrames] at h ⊢
    cases hput : q.put_nowait f with
    | ok q2 =>
      rw [hput] at h
      simp only at h
      have := ih q2 h
      have hitems : q2.items = q.items ++ [f] := by
        rw [PyQueue.put_nowait] at hput
        by_cases hc : 0 < q.maxsize ∧ q.maxsize ≤ q.items.length
        · rw [if_pos hc] at hput
          cases hput
        · rw [if_neg hc] at hput
          cases hput
          rfl
      simp only [this.1, this.2, hitems]
      simp
    | error e =>
      rw [hput] at h
      simp at h

end PushPolicyLemmas

/-- Claim C6 counterexample: the Full handler of Downlinker.deframing wraps
the entire batch loop, so when the first frame of a two-frame batch
overflows a full bounded queue, only one put_nowait is attempted: the
second frame of the batch is never pushed (nor even attempted) and only a
single warning is logged, contradicting the claim that an overflow on one
push does not prevent subsequent extracted frames of the same batch from
being pushed with their own warnings. -/
theorem C6_batch_abort_counterexample :
    (Downlinker.pushFrames { maxsize := 1, items := [[0]] }
        [[1], [2]]).attempts = 1
    ∧ ([[1], [2]] : List Frame).length = 2
    ∧ (Downlinker.pushFrames { maxsize := 1, items := [[0]] }
        [[1], [2]]).attempts ≠ ([[1], [2]] : List Frame).length
    ∧ (Downlinker.pushFrames { maxsize := 1, items := [[0]] }
        [[1], [2]]).warnings = 1
    ∧ (Downlinker.pushFrames { maxsize := 1, items := [[0]] }
        [[1], [2]]).queue.items = [[0]] := by
  refine ⟨rfl, rfl, by decide, rfl, rfl⟩

/-- Claim C6 amended: each extracted frame is pushed with a non-blocking
put_nowait and the stage neither blocks nor terminates on overflow, but
the Full handler wraps the whole batch loop: a batch logs at most one
warning, and the first overflow abandons the remaining frames of the batch
without attempting them. When no overflow occurs — in particular always in
the shipped configuration, whose queue is unbounded — every extracted
frame of the batch is pushed in order. -/
theorem C6_amended_push_policy (q : PyQueue) (fs : List Frame) :
    (Downlinker.pushFrames q fs).warnings ≤ 1
    ∧ ((Downlinker.pushFrames q fs).warnings = 0 →
        (Downlinker.pushFrames q fs).queue.items = q.items ++ fs
          ∧ (Downlinker.pushFrames q fs).attempts = fs.length)
    ∧ (q.maxsize = 0 →
        (Downlinker.pushFrames q fs).warnings = 0
          ∧ (Downlinker.pushFrames q fs).queue.items = q.items ++ fs) := by
  refine ⟨pushFrames_warnings_le_one q fs,
    fun h => pushFrames_no_warning q fs h, fun h => ?_⟩
  rw [pushFrames_unbounded q fs h]
  exact ⟨rfl, rfl⟩

/-- Closed instance of C6 amended at a concrete input: the fresh unbounded
queue accepting a two-frame batch. -/
theorem C6_amended_push_policy_witness :
    ((Downlinker.pushFrames Downlinker.outgoing_init [[1], [2]]).warnings ≤ 1
    ∧ ((Downlinker.pushFrames Downlinker.outgoing_init [[1], [2]]).warnings = 0 →
        (Downlinker.pushFrames Downlinker.outgoing_init [[1], [2]]).queue.items
            = Downlinker.outgoing_init.items ++ [[1], [2]]
          ∧ (Downlinker.pushFrames Downlinker.outgoing_init [[1], [2]]).attempts
            = ([[1], [2]] : List Frame).length)
    ∧ (Downlinker.outgoing_init.maxsize = 0 →
        (Downlinker.pushFrames Downlinker.outgoing_init [[1], [2]]).warnings = 0
          ∧ (Downlinker.pushFrames Downlinker.outgoing_init [[1], [2]]).queue.items
            = Downlinker.outgoing_init.items ++ [[1], [2]])) :=
  C6_amended_push_policy Downlinker.outgoing_init [[1], [2]]

/-- Claim C4: get_handshake(P) is a 4-byte unsigned big-endian (network
byte order) serialization of the FW_PACKET_HAND descriptor value followed
by the verbatim original packet bytes; and the frame the uplink stage
pushes on a successful write is built from the original packet, not from
the framed bytes, whatever the framer does. -/
theorem C4_handshake_format (handVal : Nat) (p : Packet)
    (frame_fn : Packet → Bytes) (write : Nat → Bool)
    (h : handVal < 2 ^ 32) (hw : write 0 = true) :
    (Uplinker.get_handshake handVal p).length = 4 + p.length
    ∧ (Uplinker.get_handshake handVal p).take 4
        = Uplinker.u32_serialize handVal
    ∧ bytesBE ((Uplinker.get_handshake handVal p).take 4) = handVal
    ∧ (Uplinker.get_handshake handVal p).drop 4 = p
    ∧ (Uplinker.uplinkOnePacket handVal frame_fn write
          Downlinker.outgoing_init p).1.items
        = [Uplinker.u32_serialize handVal ++ p] := by
  have htake : (Uplinker.get_handshake handVal p).take 4
      = Uplinker.u32_serialize handVal := rfl
  have hdrop : (Uplinker.get_handshake handVal p).drop 4 = p := rfl
  have hbe : bytesBE (Uplinker.u32_serialize handVal) = handVal := by
    have h24 : (2 : Nat) ^ 24 = 16777216 := by norm_num
    have h16 : (2 : Nat) ^ 16 = 65536 := by norm_num
    have h8 : (2 : Nat) ^ 8 = 256 := by norm_num
    have h32 : (2 : Nat) ^ 32 = 4294967296 := by norm_num
    rw [h32] at h
    simp only [bytesBE, Uplinker.u32_serialize, List.foldl, h24, h16, h8]
    omega
  have hloop : Uplinker.retryLoop write 0 Uplinker.RETRY_COUNT = (1, true) := by
    simp [Uplinker.RETRY_COUNT, Uplinker.retryLoop, hw]
  refine ⟨?_, htake, by rw [htake]; exact hbe, hdrop, ?_⟩
  · simp [Uplinker.get_handshake, Uplinker.u32_serialize]
    omega
  · simp only [Uplinker.uplinkOnePacket, hloop, Downlinker.outgoing_init,
      Uplinker.get_handshake]
    rw [add_loopback_frame_unbounded { maxsize := 0, items := [] }
      (Uplinker.u32_serialize handVal ++ p) rfl]
    simp

/-- Closed instance of C4 at the concrete descriptor value 1027 and packet
[9], with a framer that visibly alters the packet. -/
theorem C4_handshake_format_witness :
    ((Uplinker.get_handshake 1027 [9]).length = 4 + ([9] : Packet).length
    ∧ (Uplinker.get_handshake 1027 [9]).take 4 = Uplinker.u32_serialize 1027
    ∧ bytesBE ((Uplinker.get_handshake 1027 [9]).take 4) = 1027
    ∧ (Uplinker.get_handshake 1027 [9]).drop 4 = [9]
    ∧ (Uplinker.uplinkOnePacket 1027 (fun b => 0 :: b) (fun _ => true)
          Downlinker.outgoing_init [9]).1.items
        = [Uplinker.u32_serialize 1027 ++ [9]]) :=
  C4_handshake_format 1027 [9] (fun b => 0 :: b) (fun _ => true)
    (by norm_num) rfl

/-- Claim C5 counterexample: the claim fails for Downlinker.deframing (and
likewise Downlinker.sending and DtnDownlinker.deframing): those stage
bodies have no OSError handler, so an I/O error raised after a stop was
requested (running = false) still propagates out of the stage instead of
being swallowed. -/
theorem C5_oserror_counterexample :
    stage_on_oserror Stage.downlinkDeframing false = StageExit.raised
    ∧ StageExit.raised ≠ StageExit.swallowed
    ∧ ¬ (∀ s : Stage, ∀ running : Bool,
          stage_on_oserror s running
            = if running then StageExit.raised else StageExit.swallowed) := by
  refine ⟨rfl, by decide, ?_⟩
  intro hall
  have := hall Stage.downlinkDeframing false
  simp [stage_on_oserror] at this

/-- Claim C5 amended: swallow-when-stopped/propagate-when-running holds
exactly for the stage bodies whose loops are wrapped in try/except OSError
(Uplinker.uplink, DtnDownlinker._dtn_deframe, DtnUplinker.uplink,
DtnUplinker._dtn_frame); Downlinker.deframing, Downlinker.sending and
DtnDownlinker.deframing have no handler and propagate the error whatever
the running flag; while running, every stage propagates. -/
theorem C5_amended_oserror_policy (s : Stage) (running : Bool) :
    stage_on_oserror s running
      = (if stage_has_handler s then
          (if running then StageExit.raised else StageExit.swallowed)
         else StageExit.raised)
    ∧ stage_on_oserror s true = StageExit.raised := by
  cases s <;> cases running <;>
    simp [stage_on_oserror, stage_has_handler, catchOSError]

section RunAppendLemmas

/-- Running a concatenated schedule is running the pieces in sequence. -/
theorem run_append (df : Bytes → List Frame × Bytes) (s : Downlinker.State)
    (ops1 ops2 : List Downlinker.Op) :
    Downlinker.run df s (ops1 ++ ops2)
      = Downlinker.run df (Downlinker.run df s ops1) ops2 := by
  induction ops1 generalizing s with
  | nil => simp [Downlinker.run]
  | cons op ops ih =>
    rw [List.cons_append, Downlinker.run, Downlinker.run, ih]

/-- A sending iteration leaves the queue drained. -/
theorem step_send_empties (df : Bytes → List Frame × Bytes)
    (s : Downlinker.State) :
    (Downlinker.step df s Downlinker.Op.send).q.items = [] := by
  rw [Downlinker.step]
  cases hq : s.q.items with
  | nil => simp [Downlinker.sending_iter, hq]
  | cons f rest => simp [Downlinker.sending_iter, hq]

end RunAppendLemmas

/-- Claim C7: from the freshly constructed Downlinker, along any schedule
interleaving deframing iterations (with arbitrary adapter chunks) and
sending iterations, and with no loopback producer, the frames the deframer
extracts — F1..Fn in extraction order — are exactly what has been handed
to ground.send_all followed by what is still queued, with no drop and no
reorder; after one further sending iteration drains the queue, send_all
has received exactly F1..Fn in that order. -/
theorem C7_order_preservation (deframe_all : Bytes → List Frame × Bytes)
    (ops : List Downlinker.Op) :
    ((Downlinker.run deframe_all Downlinker.init ops).sent
        ++ (Downlinker.run deframe_all Downlinker.init ops).q.items
      = Downlinker.extracted deframe_all [] ops)
    ∧ ((Downlinker.run deframe_all Downlinker.init
          (ops ++ [Downlinker.Op.send])).sent
        = Downlinker.extracted deframe_all [] ops)
    ∧ (Downlinker.run deframe_all Downlinker.init ops).warnings = 0 := by
  have hinv := downlink_run_invariant deframe_all ops Downlinker.init rfl
  refine ⟨?_, ?_, ?_⟩
  · simpa [Downlinker.init, Downlinker.outgoing_init] using hinv.1
  · have hinv2 := downlink_run_invariant deframe_all
      (ops ++ [Downlinker.Op.send]) Downlinker.init rfl
    have h1 := hinv2.1
    rw [extracted_append_send] at h1
    rw [run_append] at h1
    have hstep : Downlinker.run deframe_all
        (Downlinker.run deframe_all Downlinker.init ops)
        [Downlinker.Op.send]
        = Downlinker.step deframe_all
            (Downlinker.run deframe_all Downlinker.init ops)
            Downlinker.Op.send := by
      rw [Downlinker.run, Downlinker.run]
    rw [hstep, step_send_empties] at h1
    rw [run_append, hstep]
    simpa [Downlinker.init, Downlinker.outgoing_init] using h1
  · simpa [Downlinker.init] using hinv.2.2

section DtnUplinkLemmas

/-- Each processed packet contributes exactly one loopback handshake to the
DTN uplink event trace. -/
theorem dtn_handshake_count (handVal : Nat) (l : List Packet) :
    ((l.flatMap (DtnUplinker.uplinkOnePacket handVal)).filter
        DtnUplinker.isLoopback).length = l.length := by
  induction l with
  | nil => simp
  | cons p rest ih =>
    simp only [List.flatMap_cons, List.filter_append, List.length_append, ih]
    simp [DtnUplinker.uplinkOnePacket, DtnUplinker.isLoopback]
    omega

/-- In the DTN uplink trace every processed packet's bp_send is immediately
followed by its loopback handshake. -/
theorem dtn_send_then_handshake (handVal : Nat) (l : List Packet) :
    ∀ p ∈ l, ∃ i,
      (l.flatMap (DtnUplinker.uplinkOnePacket handVal))[i]?
        = some (DtnUplinker.Event.bp_send DtnUplinker.DEST_EID_NAME p)
      ∧ (l.flatMap (DtnUplinker.uplinkOnePacket handVal))[i + 1]?
        = some (DtnUplinker.Event.add_loopback
            (Uplinker.get_handshake handVal p)) := by
  induction l with
  | nil => simp
  | cons hd tl ih =>
    intro p hp
    rcases List.mem_cons.mp hp with hp | hp
    · subst hp
      exact ⟨0, by simp [DtnUplinker.uplinkOnePacket],
        by simp [DtnUplinker.uplinkOnePacket]⟩
    · rcases ih p hp with ⟨i, h1, h2⟩
      refine ⟨i + 2, ?_, ?_⟩
      · simpa [DtnUplinker.uplinkOnePacket] using h1
      · simpa [DtnUplinker.uplinkOnePacket] using h2

end DtnUplinkLemmas

/-- Claim C9: in DtnUplinker.uplink every non-empty packet is sent with
bp_send and the loopback handshake is pushed as the very next action,
unconditionally: the body consults no write result and no delivery
confirmation, so every filtered packet yields exactly one handshake
whatever happens on the wire afterwards. -/
theorem C9_optimistic_handshake (handVal : Nat)
    (ps : List (Option Packet)) :
    (∀ p ∈ Uplinker.filter_packets ps, ∃ i,
        (DtnUplinker.uplink_iteration handVal ps)[i]?
          = some (DtnUplinker.Event.bp_send DtnUplinker.DEST_EID_NAME p)
        ∧ (DtnUplinker.uplink_iteration handVal ps)[i + 1]?
          = some (DtnUplinker.Event.add_loopback
              (Uplinker.get_handshake handVal p)))
    ∧ ((DtnUplinker.uplink_iteration handVal ps).filter
          DtnUplinker.isLoopback).length
        = (Uplinker.filter_packets ps).length := by
  rw [DtnUplinker.uplink_iteration]
  exact ⟨dtn_send_then_handshake handVal (Uplinker.filter_packets ps),
    dtn_handshake_count handVal (Uplinker.filter_packets ps)⟩

/-- Closed instance of C9 at a concrete receive_all batch with one real
packet among a null and an empty one. -/
theorem C9_optimistic_handshake_witness :
    ((∀ p ∈ Uplinker.filter_packets [some [5], none, some []], ∃ i,
        (DtnUplinker.uplink_iteration 67 [some [5], none, some []])[i]?
          = some (DtnUplinker.Event.bp_send DtnUplinker.DEST_EID_NAME p)
        ∧ (DtnUplinker.uplink_iteration 67 [some [5], none, some []])[i + 1]?
          = some (DtnUplinker.Event.add_loopback
              (Uplinker.get_handshake 67 p)))
    ∧ ((DtnUplinker.uplink_iteration 67 [some [5], none, some []]).filter
          DtnUplinker.isLoopback).length
        = (Uplinker.filter_packets [some [5], none, some []]).length) :=
  C9_optimistic_handshake 67 [some [5], none, some []]

/-- Claim C10: the wire-facing DtnDownlinker.deframing stage puts nothing
on the shared outgoing queue: each extracted frame is handed, minus its
first 4 bytes, to the LTP inbound-segment handler; the queue is fed only
by the bundle-receive thread (_dtn_deframe) and by loopback handshake
injection, both of which do append their frame on the unbounded queue. -/
theorem C10_dtn_deframing_bypasses_queue (frames : List Frame) (b : Bytes)
    (l : List Frame) :
    ((DtnDownlinker.deframe_body frames).filter DtnDownlinker.isQueuePut
        = [])
    ∧ (DtnDownlinker.deframe_body frames
        = frames.map (fun f => DtnDownlinker.Event.ltp_inbound (f.drop 4)))
    ∧ ((DtnDownlinker.dtn_deframe_iter b { maxsize := 0, items := l }).1.items
        = l ++ [b])
    ∧ ((Downlinker.add_loopback_frame { maxsize := 0, items := l } b).1.items
        = l ++ [b]) := by
  refine ⟨?_, ?_, ?_, ?_⟩
  · induction frames with
    | nil => simp [DtnDownlinker.deframe_body]
    | cons f rest ih =>
      rw [DtnDownlinker.deframe_body]
      simpa [DtnDownlinker.isQueuePut] using ih
  · induction frames with
    | nil => simp [DtnDownlinker.deframe_body]
    | cons f rest ih =>
      rw [DtnDownlinker.deframe_body, List.map_cons, ih]
  · rw [DtnDownlinker.dtn_deframe_iter,
      put_nowait_unbounded { maxsize := 0, items := l } b rfl]
  · rw [add_loopback_frame_unbounded { maxsize := 0, items := l } b rfl]
